import Mathlib

/-!
Verification of the upbit trading bot's price-history store
(`price_history_manager.py`) and rule-based coin selector (`coin_selector.py`).

Modelling conventions:
* Python floats are modelled as rationals (`ℚ`); the code only performs
  field arithmetic and comparisons on them.
* Timestamps are minutes since an arbitrary epoch (`Nat`).  The code stores
  ISO-8601 strings and compares them lexicographically, which (for a fixed
  format) coincides with chronological order, so `Nat` ordering is faithful.
  An hour key is the timestamp truncated to a multiple of 60, a date key the
  timestamp truncated to a multiple of 1440.
* Cutoff times (`timestamp - timedelta(...)`) may fall before the epoch, so
  cutoffs are `Int` and stored timestamps are cast for comparison.
* `dict.get(k, default)` on a key that is always written is modelled as an
  ordinary field; the optional `volume` key is an `Option`.
* File I/O is modelled by explicit state passing; a write that raises
  `IOError` is modelled by a `writeOk : Bool` flag on `save_price`.
-/

namespace Upbit

/-- A fine-grained tier entry: `{"timestamp": ..., "price": ..., "volume"?: ...}`
as appended by `save_price`. -/
structure PricePoint where
  timestamp : Nat
  price : ℚ
  volume : Option ℚ := none
deriving DecidableEq

/-- An hourly-tier OHLC bar as built by `_compress_to_hourly`.
`open` is a Lean keyword, hence the field is called `open_`. -/
structure HourBar where
  timestamp : Nat
  open_ : ℚ
  high : ℚ
  low : ℚ
  close : ℚ
  count : Nat
  volume : Option ℚ := none
deriving DecidableEq

/-- A daily-tier OHLC bar as built by `_compress_to_daily` (keyed by `"date"`). -/
structure DayBar where
  date : Nat
  open_ : ℚ
  high : ℚ
  low : ℚ
  close : ℚ
  count : Nat
deriving DecidableEq

/-- The per-ticker JSON file contents: the three tiers. -/
structure FileData where
  detailed : List PricePoint
  hourly : List HourBar
  daily : List DayBar
deriving DecidableEq

/-- `dt.replace(minute=0, second=0, microsecond=0)` on a minute-granularity
timestamp. -/
def hourKey (t : Nat) : Nat := t / 60 * 60

/-- `dt.date()` on a minute-granularity timestamp. -/
def dateKey (t : Nat) : Nat := t / 1440 * 1440

/-- Python `max(prices)` (the argument is nonempty at every call site). -/
def listMax (l : List ℚ) : ℚ := l.foldl max (l.headD 0)

/-- Python `min(prices)` (the argument is nonempty at every call site). -/
def listMin (l : List ℚ) : ℚ := l.foldl min (l.headD 0)

/-- Python `l[-n:]`.  For `n = 0` Python yields the whole list
(`l[-0:] = l[0:]`); for `n ≥ len(l)` truncated subtraction drops nothing. -/
def lastSlice (n : Nat) (l : List α) : List α :=
  if n = 0 then l else l.drop (l.length - n)

/-- `_compress_to_hourly`: group the expired fine-grained points by hour key
(keys visited in ascending order, as `sorted(hourly_groups.items())` does)
and append one OHLC bar per group to the hourly tier.  No check against keys
already present in `file_data["hourly"]` is performed. -/
def compress_to_hourly (data_list : List PricePoint) (file_data : FileData) :
    FileData :=
  if data_list.isEmpty then file_data
  else
    let keys := ((data_list.map (fun p => hourKey p.timestamp)).dedup).mergeSort
      (fun a b => decide (a ≤ b))
    let mkBar := fun (k : Nat) =>
      let items := data_list.filter (fun p => decide (hourKey p.timestamp = k))
      let prices := items.map (·.price)
      let volumes := items.filterMap (·.volume)
      { timestamp := k
        open_ := prices.headD 0
        high := listMax prices
        low := listMin prices
        close := prices.getLastD 0
        count := prices.length
        volume := if volumes.isEmpty then none
          else some (volumes.sum / (volumes.length : ℚ)) : HourBar }
    { file_data with hourly := file_data.hourly ++ keys.map mkBar }

/-- `_compress_to_daily`: group the expired hourly bars by date key and append
one OHLC bar per group to the daily tier.  Again no check against keys already
present in `file_data["daily"]`. -/
def compress_to_daily (data_list : List HourBar) (file_data : FileData) :
    FileData :=
  if data_list.isEmpty then file_data
  else
    let keys := ((data_list.map (fun b => dateKey b.timestamp)).dedup).mergeSort
      (fun a b => decide (a ≤ b))
    let mkBar := fun (k : Nat) =>
      let items := data_list.filter (fun b => decide (dateKey b.timestamp = k))
      { date := k
        open_ := (items.map (·.open_)).headD 0
        high := listMax (items.map (·.high))
        low := listMin (items.map (·.low))
        close := (items.map (·.close)).getLastD 0
        count := items.length : DayBar }
    { file_data with daily := file_data.daily ++ keys.map mkBar }

/-- `self.max_cache_size = 144`. -/
def max_cache_size : Nat := 144

/-- `_update_cache`: append the point and keep only the most recent
`max_cache_size` entries (`cache[-144:]`). -/
def update_cache (cache : List PricePoint) (pt : PricePoint) :
    List PricePoint :=
  let c := cache ++ [pt]
  if max_cache_size < c.length then c.drop (c.length - max_cache_size) else c

/-- The in-memory state of a `PriceHistoryManager` restricted to one ticker:
the durable per-ticker file plus the in-memory price cache. -/
structure PHState where
  file : FileData
  cache : List PricePoint
deriving DecidableEq

/-- Minutes in seven days (`timedelta(days=7)`). -/
def sevenDays : Int := 7 * 1440

/-- `save_price(ticker, price, volume, timestamp)` on the state of one ticker.
Appends the point to the fine-grained tier, compacts entries older than
`timestamp - 7d` into the hourly tier, compacts hourly bars older than the
same cutoff into the daily tier, writes the file, and finally updates the
in-memory cache.  `writeOk = false` models the durable write raising an
I/O error: the `except` block returns `False`; the file is not replaced and
the cache update (which textually follows the write) never runs. -/
def save_price (st : PHState) (t : Nat) (price : ℚ) (volume : Option ℚ)
    (writeOk : Bool) : Bool × PHState :=
  let data := st.file
  let pt : PricePoint := { timestamp := t, price := price, volume := volume }
  let detailed := data.detailed ++ [pt]
  let cutoff : Int := (t : Int) - sevenDays
  let detailed_7d := detailed.filter (fun p => decide (cutoff < (p.timestamp : Int)))
  let to_compress := detailed.filter (fun p => decide ((p.timestamp : Int) ≤ cutoff))
  let data1 := compress_to_hourly to_compress data
  let hourly := data1.hourly
  let hourly_recent := hourly.filter (fun b => decide (cutoff < (b.timestamp : Int)))
  let to_compress_daily := hourly.filter (fun b => decide ((b.timestamp : Int) ≤ cutoff))
  let data2 := compress_to_daily to_compress_daily data1
  let data3 := { data2 with detailed := detailed_7d, hourly := hourly_recent }
  if writeOk then (true, { file := data3, cache := update_cache st.cache pt })
  else (false, st)

/-- A `{"timestamp": ..., "price": ...}` entry as returned by
`_get_combined_history` (the `volume` key of cache/detailed entries is not
inspected by any consumer of the combined history). -/
structure Entry where
  timestamp : Nat
  price : ℚ
deriving DecidableEq

/-- The concatenation built by `_get_combined_history` before sorting:
cache entries newer than the cutoff, then on-disk fine-grained entries newer
than the cutoff, then hourly closes newer than the cutoff, then (only when
`hours > 24 * 7`) daily closes newer than the cutoff. -/
def combined_sources (st : PHState) (hours : Nat) (now : Nat) : List Entry :=
  let cutoff : Int := (now : Int) - hours * 60
  let fromCache := (st.cache.filter
      (fun p => decide (cutoff < (p.timestamp : Int)))).map
    (fun p => ({ timestamp := p.timestamp, price := p.price } : Entry))
  let fromDetailed := (st.file.detailed.filter
      (fun p => decide (cutoff < (p.timestamp : Int)))).map
    (fun p => ({ timestamp := p.timestamp, price := p.price } : Entry))
  let fromHourly := (st.file.hourly.filter
      (fun b => decide (cutoff < (b.timestamp : Int)))).map
    (fun b => ({ timestamp := b.timestamp, price := b.close } : Entry))
  let fromDaily := if 24 * 7 < hours then
      (st.file.daily.filter (fun d => decide (cutoff < (d.date : Int)))).map
        (fun d => ({ timestamp := d.date, price := d.close } : Entry))
    else []
  fromCache ++ fromDetailed ++ fromHourly ++ fromDaily

/-- `_get_combined_history(ticker, hours)`: the concatenated sources sorted
ascending by timestamp (`result.sort(key=lambda x: x["timestamp"])`, a stable
sort, modelled by the stable `mergeSort`). -/
def get_combined_history (st : PHState) (hours : Nat) (now : Nat) :
    List Entry :=
  (combined_sources st hours now).mergeSort
    (fun a b => decide (a.timestamp ≤ b.timestamp))

/-- Floor of a rational, computed directly from the normalised fraction
(`Int.fdiv` floors; `q.den > 0`).  Kernel-reducible, unlike `Int.floor`. -/
def ratFloor (q : ℚ) : ℤ := q.num.fdiv q.den

/-- Python's `round` to an integer: round half to even (banker's rounding). -/
def pyRound (q : ℚ) : ℤ :=
  let f := ratFloor q
  let r := q - (f : ℚ)
  if r < 1 / 2 then f
  else if 1 / 2 < r then f + 1
  else if f % 2 = 0 then f else f + 1

/-- Python's `round(q, 2)`. -/
def pyRound2 (q : ℚ) : ℚ := (pyRound (q * 100) : ℚ) / 100

/-- The consecutive differences `prices[i] - prices[i-1]` for `i = 1 ..`. -/
def diffs (prices : List ℚ) : List ℚ :=
  (prices.zip prices.tail).map (fun ab => ab.2 - ab.1)

/-- `_calculate_rsi_from_prices(prices, period)`: returns `None` when fewer
than `period + 1` prices are given; otherwise splits each consecutive change
into a gain (`max(change, 0)` with a `0` loss) or a loss (`abs(change)` with a
`0` gain), averages the last `period` of each, and applies the RSI formula.
`avg_loss == 0` short-circuits to `100.0` before any division. -/
def calculate_rsi_from_prices (prices : List ℚ) (period : Nat) : Option ℚ :=
  if prices.length < period + 1 then none
  else
    let changes := diffs prices
    let gains := changes.map (fun c => if 0 < c then c else 0)
    let losses := changes.map (fun c => if 0 < c then 0 else |c|)
    let avg_gain := (lastSlice period gains).sum / (period : ℚ)
    let avg_loss := (lastSlice period losses).sum / (period : ℚ)
    if avg_loss = 0 then some 100
    else
      let rs := avg_gain / avg_loss
      some (pyRound2 (100 - 100 / (1 + rs)))

/-- `calculate_daily_rsi(ticker, period=14, min_days=6)`, with the daily tier
of the loaded file passed explicitly (the surrounding `try`/file load is
I/O plumbing).  Requires at least `min_days` daily bars, degrades the period
to `min(len(daily) - 1, period)`, extracts the closes of the last
`actual_period + 1` bars (skipping non-positive closes, from
`if close_price and close_price > 0`), and re-checks the count. -/
def calculate_daily_rsi (daily : List DayBar) (period : Nat) (min_days : Nat) :
    Option ℚ :=
  if daily.length < min_days then none
  else
    let actual_period := min (daily.length - 1) period
    if actual_period < min_days - 1 then none
    else
      let window := lastSlice (actual_period + 1) daily
      let prices := (window.map (·.close)).filter (fun c => decide (0 < c))
      if prices.length < actual_period + 1 then none
      else calculate_rsi_from_prices prices actual_period

/-- The trend dictionary built by `_calculate_trend` (the fields the spec's
claims are about; the `volatility` field takes a real square root and is
modelled nowhere because no claim mentions it). -/
structure TrendInfo where
  current_price : ℚ
  start_price : ℚ
  change_rate : ℚ
  max_price : ℚ
  min_price : ℚ
  trend_direction : String
  data_points : Nat
deriving DecidableEq

/-- `_calculate_trend(history, ticker)`: `none` models the
`{"has_data": False}` early return for an empty history (that dictionary
carries no price or direction fields).  Otherwise `current = prices[-1]`,
`start = prices[0]`, `change_rate = round((cur-start)/start*100, 2)` guarded
by `start > 0`, max/min over all prices, and the direction compares the last
and first of `prices[-3:]` — `"unknown"` when fewer than 3 points exist. -/
def calculate_trend (history : List Entry) : Option TrendInfo :=
  if history.isEmpty then none
  else
    let prices := history.map (·.price)
    let current_price := prices.getLastD 0
    let start_price := prices.headD 0
    let change_rate :=
      if 0 < start_price then (current_price - start_price) / start_price * 100
      else 0
    let trend_direction :=
      if 3 ≤ prices.length then
        let recent_trend := lastSlice 3 prices
        if recent_trend.headD 0 < recent_trend.getLastD 0 then "upward"
        else if recent_trend.getLastD 0 < recent_trend.headD 0 then "downward"
        else "sideways"
      else "unknown"
    some
      { current_price := current_price
        start_price := start_price
        change_rate := pyRound2 change_rate
        max_price := listMax prices
        min_price := listMin prices
        trend_direction := trend_direction
        data_points := history.length }

/-! ### Coin selector (`coin_selector.py`) -/

/-- One element of the `/v1/ticker` snapshot list, restricted to the keys the
selector reads.  `volatility` is the key `filter_coins` writes onto the dict;
`classify_coins` reads it back with `coin.get("volatility", 0)`, so the field
defaults to `0` for raw snapshot entries. -/
structure Coin where
  market : String
  signed_change_rate : ℚ
  acc_trade_price_24h : ℚ
  high_price : ℚ
  low_price : ℚ
  trade_price : ℚ
  volatility : ℚ := 0
deriving DecidableEq

/-- `self.min_trade_volume = 1_000_000_000`. -/
def min_trade_volume : ℚ := 1000000000

/-- `self.min_volatility = 0.01`. -/
def min_volatility : ℚ := 1 / 100

/-- `self.max_volatility = 0.25`. -/
def max_volatility : ℚ := 25 / 100

/-- `self.momentum_threshold = 0.03`. -/
def momentum_threshold : ℚ := 3 / 100

/-- `self.dip_min_rate = -0.06`. -/
def dip_min_rate : ℚ := -6 / 100

/-- `self.dip_max_rate = 0.0`. -/
def dip_max_rate : ℚ := 0

/-- `self.dip_min_volatility = 0.015`. -/
def dip_min_volatility : ℚ := 15 / 1000

/-- `self.target_momentum_count = 6`. -/
def target_momentum_count : Nat := 6

/-- `self.target_dip_count = 6`. -/
def target_dip_count : Nat := 6

/-- `self.candidate_pool_size = 12`. -/
def candidate_pool_size : Nat := 12

/-- Python `str.startswith`, as a character-level prefix test (Lean's
built-in byte-level `String.startsWith` is not kernel-reducible). -/
def strStartsWith (s p : String) : Bool := p.data.isPrefixOf s.data

/-- `calculate_volatility(high, low, trade_price) = (high - low) / trade_price`
with a `0.0` guard for `trade_price <= 0`. -/
def calculate_volatility (high low trade_price : ℚ) : ℚ :=
  if trade_price ≤ 0 then 0 else (high - low) / trade_price

/-- `filter_coins(ticker_data)`: drop entries whose market does not start with
`"KRW-"`, then entries below the 24h trade-volume floor, then entries whose
volatility falls outside `[min_volatility, max_volatility]`; survivors get
their computed volatility written onto them. -/
def filter_coins (ticker_data : List Coin) : List Coin :=
  ticker_data.filterMap (fun item =>
    if ¬ (strStartsWith item.market "KRW-") then none
    else if item.acc_trade_price_24h < min_trade_volume then none
    else
      let volatility :=
        calculate_volatility item.high_price item.low_price item.trade_price
      if volatility < min_volatility ∨ max_volatility < volatility then none
      else some { item with volatility := volatility })

/-- `classify_coins(filtered_coins)` with the four instance-attribute
thresholds passed explicitly.  A coin goes to `momentum` when its rate meets
the momentum threshold; the dip test sits in an `elif`, hence carries the
negation of the momentum test.  `momentum` is then sorted by rate descending,
`dip` by volatility descending (Python's stable `list.sort(reverse=True)`,
modelled by stable `mergeSort` with the flipped comparator). -/
def classify_coins (mth dmin dmax dvol : ℚ) (filtered_coins : List Coin) :
    List Coin × List Coin :=
  let momentum := filtered_coins.filter
    (fun c => decide (mth ≤ c.signed_change_rate))
  let dip := filtered_coins.filter (fun c =>
    decide (¬ mth ≤ c.signed_change_rate) &&
      decide (dmin ≤ c.signed_change_rate) &&
      decide (c.signed_change_rate ≤ dmax) && decide (dvol ≤ c.volatility))
  (momentum.mergeSort
      (fun a b => decide (b.signed_change_rate ≤ a.signed_change_rate)),
    dip.mergeSort (fun a b => decide (b.volatility ≤ a.volatility)))

/-- The candidate-pool loop of `select_final_coins`: walk the sorted bucket,
collect markets not already pinned, and stop at `candidate_pool_size`. -/
def pick_candidates (pinned : List String) (bucket : List Coin) :
    List String :=
  ((bucket.map (·.market)).filter
      (fun m => !(pinned.contains m))).take candidate_pool_size

/-- The momentum draw of `select_final_coins`: take the whole pool when it is
no larger than the target, otherwise `random.sample(pool, target)`, with the
random draw abstracted as the function `sampleM`. -/
def momentum_tickers (sampleM : List String → List String)
    (pinned : List String) (momentum : List Coin) : List String :=
  let momentum_candidates := pick_candidates pinned momentum
  if momentum_candidates.length ≤ target_momentum_count then momentum_candidates
  else sampleM momentum_candidates

/-- The dip draw of `select_final_coins`, symmetric to `momentum_tickers`. -/
def dip_tickers (sampleD : List String → List String)
    (pinned : List String) (dip : List Coin) : List String :=
  let dip_candidates := pick_candidates pinned dip
  if dip_candidates.length ≤ target_dip_count then dip_candidates
  else sampleD dip_candidates

/-- `select_final_coins(pinned, momentum, dip)`: `selected` starts as
`set(pinned)`, is unioned with the sampled momentum and dip tickers, and is
returned as `sorted(list(selected))` — a lexicographically sorted duplicate-free
list, modelled as `mergeSort` of `dedup` of the concatenation. -/
def select_final_coins (sampleM sampleD : List String → List String)
    (pinned : List String) (momentum dip : List Coin) : List String :=
  ((pinned ++ momentum_tickers sampleM pinned momentum ++
      dip_tickers sampleD pinned dip).dedup).mergeSort
    (fun a b => decide (a ≤ b))

/-- The detail dictionary built at the end of `update_coin_universe`. -/
structure DetailInfo where
  pinned : List String
  momentum : List String
  dip : List String
  momentum_all : List String
  dip_all : List String
  filtered_count : Nat
  total_tickers : Nat
deriving DecidableEq

/-- `update_coin_universe` returns either a bare ticker list (the
`return pinned` on the ticker-list failure path) or a
`(final_coins, detail_info)` tuple — the Python function is dynamically
typed, so the result is a sum. -/
inductive UniverseResult where
  | listOnly (coins : List String)
  | pair (coins : List String) (detail : DetailInfo)
deriving DecidableEq

/-- `update_coin_universe()`, with the collaborator fetches passed as data:
`major_coins` from `load_pinned_tickers()`, `held_coins` from
`get_held_tickers()`, `all_tickers` from `get_all_krw_tickers()` (empty on
fetch failure), `ticker_data` from `get_ticker_data_batch(all_tickers)`
(empty on fetch failure), and the two random draws as functions.
`pinned = list(set(major_coins + held_coins))` is modelled as `dedup` of the
concatenation (Python's set iteration order is unspecified). -/
def update_coin_universe (sampleM sampleD : List String → List String)
    (major_coins held_coins : List String) (all_tickers : List String)
    (ticker_data : List Coin) : UniverseResult :=
  let pinned := (major_coins ++ held_coins).dedup
  if all_tickers.isEmpty then .listOnly pinned
  else if ticker_data.isEmpty then
    .pair pinned
      { pinned := pinned, momentum := [], dip := [], momentum_all := [],
        dip_all := [], filtered_count := 0,
        total_tickers := all_tickers.length }
  else
    let filtered := (filter_coins ticker_data).filter
      (fun c => !(pinned.contains c.market))
    let classified := classify_coins momentum_threshold dip_min_rate
      dip_max_rate dip_min_volatility filtered
    let final_coins :=
      select_final_coins sampleM sampleD pinned classified.1 classified.2
    .pair final_coins
      { pinned := pinned
        momentum := (classified.1.take target_momentum_count).map (·.market)
        dip := (classified.2.take target_dip_count).map (·.market)
        momentum_all := classified.1.map (·.market)
        dip_all := classified.2.map (·.market)
        filtered_count := filtered.length
        total_tickers := all_tickers.length }

/-! ### Helper lemmas -/

theorem lastSlice_subset (n : Nat) (l : List α) : lastSlice n l ⊆ l := by
  unfold lastSlice
  split
  · exact fun _ h => h
  · exact List.drop_subset _ _

theorem lastSlice_of_length_le (n : Nat) (l : List α) (h : l.length ≤ n) :
    lastSlice n l = l := by
  unfold lastSlice
  split
  · rfl
  · rw [Nat.sub_eq_zero_of_le h, List.drop_zero]

theorem pyRound_intCast (n : ℤ) : pyRound (n : ℚ) = n := by
  have hf : ratFloor (n : ℚ) = n := by
    simp [ratFloor, Rat.num_intCast, Rat.den_intCast]
  simp only [pyRound, hf]
  norm_num

theorem pyRound_zero : pyRound 0 = 0 := by
  have h := pyRound_intCast 0
  simpa using h

theorem pyRound2_zero : pyRound2 0 = 0 := by
  simp [pyRound2, pyRound_zero]

/-! ### C2: behaviour of `save_price` on a durable-write I/O error -/

/-- C2 counterexample: starting from an empty state, a `save_price` whose
durable write fails returns `False`, but the in-memory cache is NOT updated
with the new price point — `_update_cache` runs after the `json.dump` call
inside the `try`, so the exception skips it.  This falsifies the claim that
the cache is still updated on a failed write. -/
theorem save_price_io_error_cex :
    (save_price ⟨⟨[], [], []⟩, []⟩ 600 100 none false).1 = false ∧
    (save_price ⟨⟨[], [], []⟩, []⟩ 600 100 none false).2.cache = [] ∧
    ({ timestamp := 600, price := 100, volume := none } : PricePoint) ∉
      (save_price ⟨⟨[], [], []⟩, []⟩ 600 100 none false).2.cache := by
  refine ⟨rfl, rfl, ?_⟩
  simp [save_price]

/-- C2 amended: when the durable write raises an I/O error, `save_price`
returns `False` without raising and leaves the whole state — the per-ticker
file and, in particular, the in-memory cache — unchanged.  The cache is
updated only after a successful write. -/
theorem save_price_io_error_state (st : PHState) (t : Nat) (price : ℚ)
    (volume : Option ℚ) : save_price st t price volume false = (false, st) :=
  rfl

/-! ### C3: degraded mode of `update_coin_universe` -/

/-- C3 counterexample: when the market-wide ticker-list fetch fails
(`get_all_krw_tickers()` returns `[]`), `update_coin_universe` executes the
bare `return pinned` — it returns only the pinned list, NOT a pair of the
pinned list with an empty momentum/dip detail map.  (The pair with an empty
detail map is returned on the other failure path, when the ticker *data*
fetch fails.) -/
theorem update_coin_universe_degraded_cex :
    update_coin_universe (fun l => l.take 6) (fun l => l.take 6)
        ["KRW-BTC"] [] [] [] = .listOnly ["KRW-BTC"] ∧
    update_coin_universe (fun l => l.take 6) (fun l => l.take 6)
        ["KRW-BTC"] [] [] [] ≠ .pair ["KRW-BTC"]
      { pinned := ["KRW-BTC"], momentum := [], dip := [], momentum_all := [],
        dip_all := [], filtered_count := 0, total_tickers := 0 } := by
  constructor
  · simp [update_coin_universe]
  · simp [update_coin_universe]

/-- C3 amended: when the ticker-list fetch fails the cycle does not fail —
`update_coin_universe` returns exactly the pinned set (majors ∪ held, as a
duplicate-free list) *alone*, with no detail map; when the ticker list is
fetched but the metrics snapshot fetch fails, it returns the pinned set
paired with an empty momentum/dip detail map. -/
theorem update_coin_universe_degraded
    (sampleM sampleD : List String → List String)
    (major_coins held_coins : List String) (ticker_data : List Coin)
    (all_tickers : List String) (h : all_tickers ≠ []) :
    update_coin_universe sampleM sampleD major_coins held_coins [] ticker_data
      = .listOnly ((major_coins ++ held_coins).dedup) ∧
    (∀ x, x ∈ (major_coins ++ held_coins).dedup ↔
      x ∈ major_coins ∨ x ∈ held_coins) ∧
    update_coin_universe sampleM sampleD major_coins held_coins all_tickers []
      = .pair ((major_coins ++ held_coins).dedup)
        { pinned := (major_coins ++ held_coins).dedup, momentum := [],
          dip := [], momentum_all := [], dip_all := [], filtered_count := 0,
          total_tickers := all_tickers.length } := by
  refine ⟨?_, ?_, ?_⟩
  · simp [update_coin_universe]
  · intro x
    simp [List.mem_dedup, List.mem_append]
  · simp [update_coin_universe, h]

/-- C3 amended, witness at `major = ["KRW-BTC"]`, `held = []`, with the
metrics-failure path exercised for `all_tickers = ["KRW-BTC"]`. -/
theorem update_coin_universe_degraded_witness :
    update_coin_universe (fun l => l.take 6) (fun l => l.take 6)
        ["KRW-BTC"] [] [] [] = .listOnly ((["KRW-BTC"] ++ []).dedup) ∧
    update_coin_universe (fun l => l.take 6) (fun l => l.take 6)
        ["KRW-BTC"] [] ["KRW-BTC"] []
      = .pair ((["KRW-BTC"] ++ []).dedup)
        { pinned := (["KRW-BTC"] ++ []).dedup, momentum := [], dip := [],
          momentum_all := [], dip_all := [], filtered_count := 0,
          total_tickers := (["KRW-BTC"] : List String).length } := by
  have h := update_coin_universe_degraded (fun l => l.take 6)
    (fun l => l.take 6) ["KRW-BTC"] [] [] ["KRW-BTC"] (by simp)
  exact ⟨h.1, h.2.2⟩

/-! ### C6: momentum/dip mutual exclusion -/

/-- C6: for arbitrary (even misconfigured, overlapping) thresholds, the
momentum and dip buckets produced by `classify_coins` are disjoint, and an
entry whose rate meets the momentum threshold is never placed in the dip
bucket even if its rate and volatility satisfy the dip thresholds: the
`elif` evaluates the momentum test first and it takes precedence. -/
theorem classify_coins_mutual_exclusion (mth dmin dmax dvol : ℚ)
    (filtered_coins : List Coin) (c : Coin) :
    ¬ (c ∈ (classify_coins mth dmin dmax dvol filtered_coins).1 ∧
        c ∈ (classify_coins mth dmin dmax dvol filtered_coins).2) ∧
    (mth ≤ c.signed_change_rate →
      c ∉ (classify_coins mth dmin dmax dvol filtered_coins).2) := by
  simp only [classify_coins, List.mem_mergeSort, List.mem_filter,
    Bool.and_eq_true, decide_eq_true_eq]
  constructor
  · rintro ⟨⟨-, hm⟩, -, ⟨⟨hnm, -⟩, -⟩, -⟩
    exact hnm hm
  · rintro hm ⟨-, ⟨⟨hnm, -⟩, -⟩, -⟩
    exact hnm hm

/-- C6 witness: with an (artificially overlapping) dip range reaching up to
`+10%`, a coin at `+5%` with high volatility satisfies every dip threshold
but still lands outside the dip bucket because the momentum test fires
first. -/
theorem classify_coins_mutual_exclusion_witness :
    ({ market := "KRW-AAA", signed_change_rate := 5 / 100,
        acc_trade_price_24h := 2000000000, high_price := 110, low_price := 100,
        trade_price := 105, volatility := 5 / 100 } : Coin) ∉
      (classify_coins (3 / 100) (-6 / 100) (10 / 100) (15 / 1000)
        [{ market := "KRW-AAA", signed_change_rate := 5 / 100,
            acc_trade_price_24h := 2000000000, high_price := 110,
            low_price := 100, trade_price := 105,
            volatility := 5 / 100 }]).2 :=
  (classify_coins_mutual_exclusion (3 / 100) (-6 / 100) (10 / 100) (15 / 1000)
    _ _).2 (by norm_num)

/-! ### C10: non-KRW markets are silently dropped -/

theorem mem_filter_coins_krw {td : List Coin} {c : Coin}
    (h : c ∈ filter_coins td) : strStartsWith c.market "KRW-" = true := by
  simp only [filter_coins, List.mem_filterMap] at h
  obtain ⟨a, -, hfa⟩ := h
  by_cases hm : strStartsWith a.market "KRW-" = true
  · by_cases h2 : a.acc_trade_price_24h < min_trade_volume
    · simp only [hm, not_true, if_false, if_pos h2] at hfa
      exact absurd hfa (by simp)
    · by_cases h3 :
        calculate_volatility a.high_price a.low_price a.trade_price <
            min_volatility ∨
          max_volatility <
            calculate_volatility a.high_price a.low_price a.trade_price
      · simp only [hm, not_true, if_false, if_neg h2, if_pos h3] at hfa
        exact absurd hfa (by simp)
      · simp only [hm, not_true, if_false, if_neg h2, if_neg h3,
          Option.some.injEq] at hfa
        subst hfa
        exact hm
  · rw [if_pos (by simpa using hm)] at hfa
    exact absurd hfa (by simp)

theorem mem_classify_fst {mth dmin dmax dvol : ℚ} {l : List Coin} {c : Coin}
    (h : c ∈ (classify_coins mth dmin dmax dvol l).1) : c ∈ l := by
  simp only [classify_coins, List.mem_mergeSort, List.mem_filter] at h
  exact h.1

theorem mem_classify_snd {mth dmin dmax dvol : ℚ} {l : List Coin} {c : Coin}
    (h : c ∈ (classify_coins mth dmin dmax dvol l).2) : c ∈ l := by
  simp only [classify_coins, List.mem_mergeSort, List.mem_filter] at h
  exact h.1

theorem mem_pick_candidates {pinned : List String} {bucket : List Coin}
    {m : String} (h : m ∈ pick_candidates pinned bucket) :
    ∃ c ∈ bucket, c.market = m := by
  simp only [pick_candidates] at h
  have h2 := List.mem_of_mem_filter (List.take_subset _ _ h)
  obtain ⟨c, hc, rfl⟩ := List.mem_map.mp h2
  exact ⟨c, hc, rfl⟩

/-- C10: the coin filter silently drops every snapshot entry whose market
identifier does not start with `"KRW-"` — regardless of its liquidity and
volatility fields — so every coin in the filtered output, in either
classification bucket, in either candidate pool, and in any random sample
drawn from a pool, has a `"KRW-"` market. -/
theorem filter_coins_krw_only (td : List Coin) (mth dmin dmax dvol : ℚ)
    (pinned : List String) (sampleM : List String → List String)
    (hs : ∀ l, sampleM l ⊆ l) :
    (∀ c ∈ filter_coins td, strStartsWith c.market "KRW-" = true) ∧
    (∀ c ∈ (classify_coins mth dmin dmax dvol (filter_coins td)).1,
      strStartsWith c.market "KRW-" = true) ∧
    (∀ c ∈ (classify_coins mth dmin dmax dvol (filter_coins td)).2,
      strStartsWith c.market "KRW-" = true) ∧
    (∀ m ∈ pick_candidates pinned
        (classify_coins mth dmin dmax dvol (filter_coins td)).1,
      strStartsWith m "KRW-" = true) ∧
    (∀ m ∈ pick_candidates pinned
        (classify_coins mth dmin dmax dvol (filter_coins td)).2,
      strStartsWith m "KRW-" = true) ∧
    (∀ m ∈ sampleM (pick_candidates pinned
        (classify_coins mth dmin dmax dvol (filter_coins td)).1),
      strStartsWith m "KRW-" = true) ∧
    (∀ item : Coin, strStartsWith item.market "KRW-" = false →
      filter_coins [item] = []) := by
  have h1 : ∀ c ∈ filter_coins td, strStartsWith c.market "KRW-" = true :=
    fun _ h => mem_filter_coins_krw h
  have hm : ∀ m ∈ pick_candidates pinned
      (classify_coins mth dmin dmax dvol (filter_coins td)).1,
      strStartsWith m "KRW-" = true := by
    intro m hmem
    obtain ⟨c, hc, rfl⟩ := mem_pick_candidates hmem
    exact h1 c (mem_classify_fst hc)
  refine ⟨h1, ?_, ?_, hm, ?_, ?_, ?_⟩
  · exact fun c hc => h1 c (mem_classify_fst hc)
  · exact fun c hc => h1 c (mem_classify_snd hc)
  · intro m hmem
    obtain ⟨c, hc, rfl⟩ := mem_pick_candidates hmem
    exact h1 c (mem_classify_snd hc)
  · exact fun m hmem => hm m (hs _ hmem)
  · intro item hitem
    simp [filter_coins, hitem]

/-- C10 witness: a Tether-market entry passing every liquidity and volatility
gate is still dropped by `filter_coins`. -/
theorem filter_coins_krw_only_witness :
    filter_coins
      [{ market := "USDT-BTC", signed_change_rate := 5 / 100,
         acc_trade_price_24h := 2000000000, high_price := 110,
         low_price := 100, trade_price := 105 }] = [] :=
  (filter_coins_krw_only [] 0 0 0 0 [] (fun l => l.take 6)
    (fun l => List.take_subset 6 l)).2.2.2.2.2.2 _ (by decide)

/-! ### C5: selector invariants -/

theorem momentum_tickers_subset (sampleM : List String → List String)
    (pinned : List String) (momentum : List Coin)
    (hMs : ∀ l, sampleM l ⊆ l) :
    momentum_tickers sampleM pinned momentum ⊆
      pick_candidates pinned momentum := by
  unfold momentum_tickers
  dsimp only
  split
  · exact fun _ h => h
  · exact hMs _

theorem dip_tickers_subset (sampleD : List String → List String)
    (pinned : List String) (dip : List Coin)
    (hDs : ∀ l, sampleD l ⊆ l) :
    dip_tickers sampleD pinned dip ⊆ pick_candidates pinned dip := by
  unfold dip_tickers
  dsimp only
  split
  · exact fun _ h => h
  · exact hDs _

theorem momentum_tickers_length (sampleM : List String → List String)
    (pinned : List String) (momentum : List Coin)
    (hMn : ∀ l, (sampleM l).length ≤ target_momentum_count) :
    (momentum_tickers sampleM pinned momentum).length ≤
      target_momentum_count := by
  unfold momentum_tickers
  dsimp only
  split
  · assumption
  · exact hMn _

theorem dip_tickers_length (sampleD : List String → List String)
    (pinned : List String) (dip : List Coin)
    (hDn : ∀ l, (sampleD l).length ≤ target_dip_count) :
    (dip_tickers sampleD pinned dip).length ≤ target_dip_count := by
  unfold dip_tickers
  dsimp only
  split
  · assumption
  · exact hDn _

/-- C5: for every input and every random draw (any `sample` functions that
return at most the target count of elements, all taken from their argument —
which `random.sample(pool, k)` does), the selector's output contains all of
`pinned`; has at most `len(pinned) + target_momentum + target_dip` elements;
draws its momentum and dip samples from the respective candidate pools (the
top `candidate_pool_size` non-pinned entries of each bucket); and is
duplicate-free and sorted lexicographically. -/
theorem select_final_coins_invariants
    (sampleM sampleD : List String → List String)
    (pinned : List String) (momentum dip : List Coin)
    (hMs : ∀ l, sampleM l ⊆ l)
    (hMn : ∀ l, (sampleM l).length ≤ target_momentum_count)
    (hDs : ∀ l, sampleD l ⊆ l)
    (hDn : ∀ l, (sampleD l).length ≤ target_dip_count) :
    (∀ p ∈ pinned,
      p ∈ select_final_coins sampleM sampleD pinned momentum dip) ∧
    (select_final_coins sampleM sampleD pinned momentum dip).length ≤
      pinned.length + target_momentum_count + target_dip_count ∧
    momentum_tickers sampleM pinned momentum ⊆
      pick_candidates pinned momentum ∧
    dip_tickers sampleD pinned dip ⊆ pick_candidates pinned dip ∧
    (select_final_coins sampleM sampleD pinned momentum dip).Nodup ∧
    (select_final_coins sampleM sampleD pinned momentum dip).Sorted
      (· ≤ ·) := by
  refine ⟨?_, ?_, momentum_tickers_subset _ _ _ hMs,
    dip_tickers_subset _ _ _ hDs, ?_, ?_⟩
  · intro p hp
    unfold select_final_coins
    rw [List.mem_mergeSort, List.mem_dedup]
    exact List.mem_append_left _ (List.mem_append_left _ hp)
  · unfold select_final_coins
    rw [List.length_mergeSort]
    calc ((pinned ++ momentum_tickers sampleM pinned momentum ++
          dip_tickers sampleD pinned dip).dedup).length
        ≤ (pinned ++ momentum_tickers sampleM pinned momentum ++
          dip_tickers sampleD pinned dip).length :=
          (List.dedup_sublist _).length_le
      _ = pinned.length +
            (momentum_tickers sampleM pinned momentum).length +
            (dip_tickers sampleD pinned dip).length := by
          simp [List.length_append, Nat.add_assoc]
      _ ≤ pinned.length + target_momentum_count + target_dip_count := by
          have h1 := momentum_tickers_length sampleM pinned momentum hMn
          have h2 := dip_tickers_length sampleD pinned dip hDn
          omega
  · unfold select_final_coins
    exact ((List.mergeSort_perm _ _).nodup_iff).mpr (List.nodup_dedup _)
  · exact List.sorted_mergeSort' _

/-- C5 witness at a concrete pinned list and empty buckets, with the draw
instantiated by `take target_count` (a legal draw: a subset of the pool of at
most the target size). -/
theorem select_final_coins_invariants_witness :
    (select_final_coins (fun l => l.take 6) (fun l => l.take 6)
        ["KRW-BTC"] [] []).length ≤
      (["KRW-BTC"] : List String).length + target_momentum_count +
        target_dip_count ∧
    (select_final_coins (fun l => l.take 6) (fun l => l.take 6)
        ["KRW-BTC"] [] []).Nodup ∧
    (select_final_coins (fun l => l.take 6) (fun l => l.take 6)
        ["KRW-BTC"] [] []).Sorted (· ≤ ·) := by
  have h := select_final_coins_invariants (fun l => l.take 6)
    (fun l => l.take 6) ["KRW-BTC"] [] []
    (fun l => List.take_subset 6 l)
    (fun l => by rw [List.length_take]; exact min_le_left _ _)
    (fun l => List.take_subset 6 l)
    (fun l => by rw [List.length_take]; exact min_le_left _ _)
  exact ⟨h.2.1, h.2.2.2.2.1, h.2.2.2.2.2⟩

/-! ### C7: RSI boundary behaviour -/

theorem diffs_cons_cons (a b : ℚ) (t : List ℚ) :
    diffs (a :: b :: t) = (b - a) :: diffs (b :: t) := rfl

theorem diffs_length (l : List ℚ) : (diffs l).length = l.length - 1 := by
  induction l with
  | nil => simp [diffs]
  | cons a t ih =>
    cases t with
    | nil => simp [diffs]
    | cons b t' =>
      rw [diffs_cons_cons]
      simp only [List.length_cons] at ih ⊢
      omega

theorem diffs_pos (l : List ℚ) (h : List.Chain' (· < ·) l) :
    ∀ c ∈ diffs l, 0 < c := by
  induction l with
  | nil => simp [diffs]
  | cons a t ih =>
    cases t with
    | nil => simp [diffs]
    | cons b t' =>
      rw [diffs_cons_cons]
      rcases List.chain'_cons.mp h with ⟨hab, h'⟩
      intro c hc
      rcases List.mem_cons.mp hc with rfl | hc'
      · linarith
      · exact ih h' c hc'

theorem diffs_neg (l : List ℚ) (h : List.Chain' (· > ·) l) :
    ∀ c ∈ diffs l, c < 0 := by
  induction l with
  | nil => simp [diffs]
  | cons a t ih =>
    cases t with
    | nil => simp [diffs]
    | cons b t' =>
      rw [diffs_cons_cons]
      rcases List.chain'_cons.mp h with ⟨hab, h'⟩
      intro c hc
      rcases List.mem_cons.mp hc with rfl | hc'
      · dsimp only [GT.gt] at hab
        linarith
      · exact ih h' c hc'

/-- C7: for a positive price series of length exactly `period + 1` presented
oldest-to-newest, a strictly increasing series makes
`_calculate_rsi_from_prices` return exactly `100`, a strictly decreasing one
exactly `0` (`avg_gain = 0`, so the formula yields `0`); any series shorter
than `period + 1` yields `None`, never a number. -/
theorem rsi_boundary (prices : List ℚ) (period : Nat) (hp : 0 < period)
    (hpos : ∀ p ∈ prices, 0 < p) :
    (prices.length = period + 1 → List.Chain' (· < ·) prices →
      calculate_rsi_from_prices prices period = some 100) ∧
    (prices.length = period + 1 → List.Chain' (· > ·) prices →
      calculate_rsi_from_prices prices period = some 0) ∧
    (prices.length < period + 1 →
      calculate_rsi_from_prices prices period = none) := by
  refine ⟨?_, ?_, ?_⟩
  · intro hlen hchain
    have hnotlt : ¬ prices.length < period + 1 := by omega
    have hQ : ((lastSlice period
        ((diffs prices).map fun c => if 0 < c then 0 else |c|)).sum /
          (period : ℚ)) = 0 := by
      have hsum : (lastSlice period
          ((diffs prices).map fun c => if 0 < c then 0 else |c|)).sum = 0 := by
        refine List.sum_eq_zero (fun x hx => ?_)
        obtain ⟨c, hc, rfl⟩ :=
          List.mem_map.mp (lastSlice_subset _ _ hx)
        simp [diffs_pos prices hchain c hc]
      rw [hsum, zero_div]
    simp only [calculate_rsi_from_prices, if_neg hnotlt]
    rw [if_pos hQ]
  · intro hlen hchain
    have hnotlt : ¬ prices.length < period + 1 := by omega
    have hlenL : ((diffs prices).map
        fun c => if 0 < c then 0 else |c|).length = period := by
      rw [List.length_map, diffs_length, hlen]
      omega
    have hslice : lastSlice period
        ((diffs prices).map fun c => if 0 < c then 0 else |c|) =
        (diffs prices).map fun c => if 0 < c then 0 else |c| :=
      lastSlice_of_length_le _ _ (le_of_eq hlenL)
    have hLpos : 0 < (lastSlice period
        ((diffs prices).map fun c => if 0 < c then 0 else |c|)).sum := by
      rw [hslice]
      refine List.sum_pos _ (fun x hx => ?_) ?_
      · obtain ⟨c, hc, rfl⟩ := List.mem_map.mp hx
        have hc0 := diffs_neg prices hchain c hc
        rw [if_neg (by linarith)]
        exact abs_pos.mpr (ne_of_lt hc0)
      · intro hnil
        rw [hnil] at hlenL
        simp at hlenL
        omega
    have hAvgLoss : ((lastSlice period
        ((diffs prices).map fun c => if 0 < c then 0 else |c|)).sum /
          (period : ℚ)) ≠ 0 :=
      ne_of_gt (div_pos hLpos (by exact_mod_cast hp))
    have hGsum : (lastSlice period
        ((diffs prices).map fun c => if 0 < c then c else 0)).sum = 0 := by
      refine List.sum_eq_zero (fun x hx => ?_)
      obtain ⟨c, hc, rfl⟩ := List.mem_map.mp (lastSlice_subset _ _ hx)
      have hc0 := diffs_neg prices hchain c hc
      rw [if_neg (by linarith)]
    simp only [calculate_rsi_from_prices, if_neg hnotlt]
    rw [if_neg hAvgLoss, hGsum]
    simp [zero_div, pyRound2_zero]
  · intro hshort
    simp [calculate_rsi_from_prices, hshort]

/-- C7 witness at `prices = [1, 2]`, `period = 1` (increasing series of
length `period + 1`) and at `prices = [1]` (too short). -/
theorem rsi_boundary_witness :
    calculate_rsi_from_prices [1, 2] 1 = some 100 ∧
    calculate_rsi_from_prices [2, 1] 1 = some 0 ∧
    calculate_rsi_from_prices [1] 1 = none := by
  have hpos2 : ∀ p ∈ ([1, 2] : List ℚ), 0 < p := by
    simp only [List.forall_mem_cons, List.forall_mem_nil]
    norm_num
  have hpos2' : ∀ p ∈ ([2, 1] : List ℚ), 0 < p := by
    simp only [List.forall_mem_cons, List.forall_mem_nil]
    norm_num
  have hpos1 : ∀ p ∈ ([1] : List ℚ), 0 < p := by
    simp only [List.forall_mem_cons, List.forall_mem_nil]
    norm_num
  refine ⟨(rsi_boundary [1, 2] 1 Nat.one_pos hpos2).1 rfl ?_,
    (rsi_boundary [2, 1] 1 Nat.one_pos hpos2').2.1 rfl ?_,
    (rsi_boundary [1] 1 Nat.one_pos hpos1).2.2 (by norm_num)⟩
  · rw [List.chain'_cons]
    refine ⟨by norm_num, List.chain'_singleton _⟩
  · rw [List.chain'_cons]
    refine ⟨by norm_num, List.chain'_singleton _⟩

/-! ### C8: symmetric effective-period degradation of the daily RSI -/

/-- C8: whenever the daily tier holds at least `min_days` but fewer than
`period + 1` bars (with positive closes, as every stored close is), the daily
RSI is computed at the reduced effective period `len(daily) - 1`, and the
degradation is symmetric: the window passed to the RSI kernel is exactly the
last `effective_period + 1` daily closes (here the whole tier) and the very
same `effective_period` is the period passed into the formula. -/
theorem daily_rsi_degradation (daily : List DayBar) (period min_days : Nat)
    (h1 : min_days ≤ daily.length) (h2 : daily.length < period + 1)
    (h3 : 1 ≤ min_days) (hpos : ∀ b ∈ daily, 0 < b.close) :
    calculate_daily_rsi daily period min_days =
      calculate_rsi_from_prices (daily.map (·.close)) (daily.length - 1) ∧
    min (daily.length - 1) period = daily.length - 1 ∧
    daily.length - 1 < period ∧
    lastSlice ((daily.length - 1) + 1) daily = daily := by
  have hlen1 : 1 ≤ daily.length := le_trans h3 h1
  have hmin : min (daily.length - 1) period = daily.length - 1 :=
    min_eq_left (by omega)
  have hwin : lastSlice ((daily.length - 1) + 1) daily = daily :=
    lastSlice_of_length_le _ _ (by omega)
  have hfilter : (daily.map (·.close)).filter (fun c => decide (0 < c)) =
      daily.map (·.close) := by
    rw [List.filter_eq_self]
    intro a ha
    obtain ⟨b, hb, rfl⟩ := List.mem_map.mp ha
    simpa using hpos b hb
  refine ⟨?_, hmin, by omega, hwin⟩
  unfold calculate_daily_rsi
  rw [if_neg (by omega)]
  dsimp only
  rw [hmin, if_neg (by omega), hwin, hfilter,
    if_neg (by rw [List.length_map]; omega)]

/-- C8 witness: seven daily bars (closes 1..7), `period = 14`,
`min_days = 6` — the RSI runs at effective period 6 over all seven closes. -/
theorem daily_rsi_degradation_witness :
    calculate_daily_rsi
        [{ date := 0, open_ := 1, high := 1, low := 1, close := 1, count := 1 },
         { date := 1440, open_ := 2, high := 2, low := 2, close := 2, count := 1 },
         { date := 2880, open_ := 3, high := 3, low := 3, close := 3, count := 1 },
         { date := 4320, open_ := 4, high := 4, low := 4, close := 4, count := 1 },
         { date := 5760, open_ := 5, high := 5, low := 5, close := 5, count := 1 },
         { date := 7200, open_ := 6, high := 6, low := 6, close := 6, count := 1 },
         { date := 8640, open_ := 7, high := 7, low := 7, close := 7, count := 1 }]
        14 6 =
      calculate_rsi_from_prices
        (([{ date := 0, open_ := 1, high := 1, low := 1, close := 1, count := 1 },
           { date := 1440, open_ := 2, high := 2, low := 2, close := 2, count := 1 },
           { date := 2880, open_ := 3, high := 3, low := 3, close := 3, count := 1 },
           { date := 4320, open_ := 4, high := 4, low := 4, close := 4, count := 1 },
           { date := 5760, open_ := 5, high := 5, low := 5, close := 5, count := 1 },
           { date := 7200, open_ := 6, high := 6, low := 6, close := 6, count := 1 },
           { date := 8640, open_ := 7, high := 7, low := 7, close := 7, count := 1 }] :
          List DayBar).map (·.close)) 6 := by
  have h := daily_rsi_degradation
    [{ date := 0, open_ := 1, high := 1, low := 1, close := 1, count := 1 },
     { date := 1440, open_ := 2, high := 2, low := 2, close := 2, count := 1 },
     { date := 2880, open_ := 3, high := 3, low := 3, close := 3, count := 1 },
     { date := 4320, open_ := 4, high := 4, low := 4, close := 4, count := 1 },
     { date := 5760, open_ := 5, high := 5, low := 5, close := 5, count := 1 },
     { date := 7200, open_ := 6, high := 6, low := 6, close := 6, count := 1 },
     { date := 8640, open_ := 7, high := 7, low := 7, close := 7, count := 1 }]
    14 6 (by norm_num) (by norm_num) (by norm_num)
    (by
      simp only [List.forall_mem_cons, List.forall_mem_nil]
      norm_num)
  exact h.1

/-! ### C9: trend on the literal three-point input -/

theorem pyRound2_neg_ten : pyRound2 (-10) = -10 := by
  have h1 : ((-10 : ℚ) * 100) = ((-1000 : ℤ) : ℚ) := by norm_num
  rw [pyRound2, h1, pyRound_intCast]
  norm_num

theorem calculate_trend_literal_eq :
    calculate_trend [⟨0, 100⟩, ⟨1, 110⟩, ⟨2, 90⟩] = some
      { current_price := 90, start_price := 100, change_rate := -10,
        max_price := 110, min_price := 90, trend_direction := "downward",
        data_points := 3 } := by
  unfold calculate_trend
  rw [if_neg (by simp)]
  dsimp only
  norm_num [lastSlice, listMax, listMin]
  exact pyRound2_neg_ten

/-- C9: on the literal three-point input
`[(t0,100), (t1,110), (t2,90)]`, `_calculate_trend` reports
`start_price = 100`, `current_price = 90`, `change_rate = -10.0`,
`max_price = 110`, `min_price = 90` and direction `"downward"` (the 3-point
window compares the last price 90 against the first price 100); and for every
nonempty input with fewer than 3 points the direction is `"unknown"`. -/
theorem calculate_trend_literal :
    ((calculate_trend [⟨0, 100⟩, ⟨1, 110⟩, ⟨2, 90⟩]).map (·.start_price) =
        some 100 ∧
      (calculate_trend [⟨0, 100⟩, ⟨1, 110⟩, ⟨2, 90⟩]).map (·.current_price) =
        some 90 ∧
      (calculate_trend [⟨0, 100⟩, ⟨1, 110⟩, ⟨2, 90⟩]).map (·.change_rate) =
        some (-10) ∧
      (calculate_trend [⟨0, 100⟩, ⟨1, 110⟩, ⟨2, 90⟩]).map (·.max_price) =
        some 110 ∧
      (calculate_trend [⟨0, 100⟩, ⟨1, 110⟩, ⟨2, 90⟩]).map (·.min_price) =
        some 90 ∧
      (calculate_trend [⟨0, 100⟩, ⟨1, 110⟩, ⟨2, 90⟩]).map (·.trend_direction) =
        some "downward") ∧
    (∀ h : List Entry, h ≠ [] → h.length < 3 →
      (calculate_trend h).map (·.trend_direction) = some "unknown") := by
  constructor
  · rw [calculate_trend_literal_eq]
    refine ⟨rfl, rfl, rfl, rfl, rfl, rfl⟩
  · intro h hne hlen
    unfold calculate_trend
    rw [if_neg (by simpa using hne)]
    dsimp only
    rw [if_neg (show ¬ 3 ≤ (List.map (fun x => x.price) h).length by
      rw [List.length_map]; omega)]
    rfl

/-- C9 witness for the quantified part: a single-point history has direction
`"unknown"`. -/
theorem calculate_trend_literal_witness :
    (calculate_trend [⟨0, 5⟩]).map (·.trend_direction) = some "unknown" :=
  calculate_trend_literal.2 [⟨0, 5⟩] (by simp) (by simp)

/-! ### C1: duplicate timestamp keys across compaction batches -/

theorem save_price_chain_state :
    (save_price (save_price (save_price (save_price
          ⟨⟨[], [], []⟩, []⟩ 600 1 none true).2 610 2 none true).2
        10685 3 none true).2 10695 4 none true).2 =
      ⟨⟨[⟨10685, 3, none⟩, ⟨10695, 4, none⟩], [],
          [⟨0, 1, 1, 1, 1, 1⟩, ⟨0, 2, 2, 2, 2, 1⟩]⟩,
        [⟨600, 1, none⟩, ⟨610, 2, none⟩, ⟨10685, 3, none⟩,
          ⟨10695, 4, none⟩]⟩ := by
  simp [save_price, compress_to_hourly, compress_to_daily, update_cache,
    sevenDays, max_cache_size, hourKey, dateKey, listMax, listMin]

/-- C1 counterexample: after the four record operations
`save_price` at minutes 600, 610, 10685 and 10695 (all succeeding), the
daily tier holds two bars with the same date key `0`: the two fine-grained
points of hour 600 cross the 7-day cutoff in different calls, each call
compacts its own batch without checking the target tier for an existing key,
and the resulting hour bars are in turn folded into two daily bars for the
same date.  This falsifies "no tier ever contains two entries with the same
timestamp key" and "re-running compaction over already-compacted data
produces no duplicate target-tier entries". -/
theorem compaction_duplicate_key_cex :
    ((save_price (save_price (save_price (save_price
          ⟨⟨[], [], []⟩, []⟩ 600 1 none true).2 610 2 none true).2
        10685 3 none true).2 10695 4 none true).2.file.daily.map (·.date)) =
      [0, 0] ∧
    ¬ ((save_price (save_price (save_price (save_price
          ⟨⟨[], [], []⟩, []⟩ 600 1 none true).2 610 2 none true).2
        10685 3 none true).2 10695 4 none true).2.file.daily.map
        (·.date)).Nodup := by
  rw [save_price_chain_state]
  exact ⟨rfl, by simp⟩

/-- C1 amended: within one compaction call the appended target-tier bars do
have pairwise-distinct keys (the batch is grouped by key before synthesis) —
but compaction performs no check against keys already present in the target
tier, so distinct record calls can leave a tier with duplicate keys (see the
counterexample). -/
theorem compress_batch_keys_nodup (data_list : List PricePoint)
    (data_list2 : List HourBar) (fd : FileData) :
    (((compress_to_hourly data_list fd).hourly.drop fd.hourly.length).map
      (·.timestamp)).Nodup ∧
    (((compress_to_daily data_list2 fd).daily.drop fd.daily.length).map
      (·.date)).Nodup := by
  constructor
  · unfold compress_to_hourly
    split
    · simp
    · dsimp only
      rw [List.drop_left, List.map_map]
      simp only [Function.comp_def]
      rw [List.map_id']
      exact ((List.mergeSort_perm _ _).nodup_iff).mpr (List.nodup_dedup _)
  · unfold compress_to_daily
    split
    · simp
    · dsimp only
      rw [List.drop_left, List.map_map]
      simp only [Function.comp_def]
      rw [List.map_id']
      exact ((List.mergeSort_perm _ _).nodup_iff).mpr (List.nodup_dedup _)

/-! ### C4: the combined history is sorted but NOT duplicate-free -/

/-- C4 counterexample: after one successful `save_price` at minute 600, the
very same price point sits both in the in-memory cache and in the on-disk
fine-grained tier, and both are newer than the cutoff of a
`_get_combined_history(ticker, 24)` query at minute 610 — so the combined
history contains the entry (timestamp 600, price 1) twice.  The sources do
overlap and no deduplication is performed, falsifying "containing no
duplicate entries / each timestamp appears at most once". -/
theorem combined_history_duplicate_cex :
    combined_sources (save_price ⟨⟨[], [], []⟩, []⟩ 600 1 none true).2 24 610 =
      [⟨600, 1⟩, ⟨600, 1⟩] ∧
    ¬ (get_combined_history
        (save_price ⟨⟨[], [], []⟩, []⟩ 600 1 none true).2 24 610).Nodup ∧
    ¬ ((get_combined_history
        (save_price ⟨⟨[], [], []⟩, []⟩ 600 1 none true).2 24 610).map
        (·.timestamp)).Nodup := by
  have e : combined_sources
      (save_price ⟨⟨[], [], []⟩, []⟩ 600 1 none true).2 24 610 =
      [⟨600, 1⟩, ⟨600, 1⟩] := by
    simp [combined_sources, save_price, compress_to_hourly, compress_to_daily,
      update_cache, sevenDays, max_cache_size]
  refine ⟨e, ?_, ?_⟩
  · unfold get_combined_history
    rw [(List.mergeSort_perm _ _).nodup_iff, e]
    simp
  · unfold get_combined_history
    have hperm := (List.mergeSort_perm
      (combined_sources
        (save_price ⟨⟨[], [], []⟩, []⟩ 600 1 none true).2 24 610)
      (fun a b => decide (a.timestamp ≤ b.timestamp))).map
      (fun x : Entry => x.timestamp)
    rw [hperm.nodup_iff, e]
    simp

/-- C4 amended: `_get_combined_history` returns the concatenation of the four
sources sorted ascending by timestamp (non-strictly), as a permutation of the
raw concatenation — entries are NOT deduplicated, so a timestamp can appear
more than once whenever the sources overlap (which they do: the cache mirrors
the fine-grained tier; see the counterexample). -/
theorem get_combined_history_sorted (st : PHState) (hours now : Nat) :
    List.Pairwise (fun a b : Entry => a.timestamp ≤ b.timestamp)
      (get_combined_history st hours now) ∧
    (get_combined_history st hours now).Perm
      (combined_sources st hours now) := by
  constructor
  · have h := @List.sorted_mergeSort Entry
      (fun a b => decide (a.timestamp ≤ b.timestamp))
      (fun a b c hab hbc => by
        simp only [decide_eq_true_eq] at hab hbc ⊢
        omega)
      (fun a b => by
        simp only [Bool.or_eq_true, decide_eq_true_eq]
        exact Nat.le_total _ _)
      (combined_sources st hours now)
    exact h.imp (fun hab => by simpa using hab)
  · exact List.mergeSort_perm _ _

end Upbit
